import Mathlib

/-!
Shallow embedding of the storage gateway in `src/services/storage.ts` of the
Domus-Nostra-PSJB repository, a client-side persistence facade for a parish
room-booking prototype.  The browser-local key-value store is modelled as a
record with one `Option` field per storage key (`none` = key absent), and each
operation of `StorageService` becomes a pure function from a store to a pair
of its resolved value and the updated store.  Promise resolution is modelled
as the returned value (the artificial `setTimeout` delays are scheduling
detail with no effect on the resolved value or the final store).  JSON
round-trips through `localStorage` are modelled as the identity on typed
values; an object field destructured away (the password strip) and a field
that is absent serialize identically, so an absent password is `none`.
-/

/-- Modelled from the spec: the user role enum of the `types` module (not under
`src/`); spec section 3 gives `role ∈ {ADMIN, USER}`. -/
inductive UserRole where
  | ADMIN
  | USER
deriving DecidableEq, Repr

/-- Modelled from the spec: the booking status enum of the `types` module (not
under `src/`); spec section 3 gives `status ∈ {PENDING, APPROVED, REJECTED,
CANCELLED}` with PENDING the only creation status. -/
inductive BookingStatus where
  | PENDING
  | APPROVED
  | REJECTED
  | CANCELLED
deriving DecidableEq, Repr

/-- Room record, fields as in the seed data of `storage.ts` and spec section 3:
`{ id, name, capacity, features, imageUrl }`. -/
structure Room where
  id : String
  name : String
  capacity : Nat
  features : List String
  imageUrl : String
deriving DecidableEq, Repr

/-- Stored user record (`StoredUser` in `storage.ts`): a `User` plus an
optional plaintext password.  `password = none` models both an absent key and
the key destructured away before returning a user to a caller. -/
structure StoredUser where
  id : String
  username : String
  password : Option String
  role : UserRole
  name : String
deriving DecidableEq, Repr

/-- Booking record.  `storage.ts` uses the fields `id`, `roomId`, `status` and
`createdAt`.  Modelled from the spec: the remaining payload (requester info and
time range, spec section 3; the `types` module is not under `src/`) is carried
as opaque requester and time-range fields, which no storage operation
inspects. -/
structure Booking where
  id : String
  roomId : String
  requester : String
  timeStart : Nat
  timeEnd : Nat
  status : BookingStatus
  createdAt : Nat
deriving DecidableEq, Repr

/-- App configuration singleton: `{ appName, appLogo }`. -/
structure AppConfig where
  appName : String
  appLogo : String
deriving DecidableEq, Repr

/-- The browser-local key-value store restricted to the five fixed keys of
`STORAGE_KEYS`.  A field is `none` exactly when `localStorage.getItem` of the
corresponding key returns `null`. -/
structure Store where
  users : Option (List StoredUser)
  rooms : Option (List Room)
  bookings : Option (List Booking)
  currentUser : Option StoredUser
  config : Option AppConfig
deriving DecidableEq, Repr

/-- `SEED_ROOMS` of `storage.ts`: one default room. -/
def SEED_ROOMS : List Room :=
  [{ id := "room-1", name := "Salon Parroquial Principal", capacity := 50,
     features := ["Proyector", "Aire Acondicionado", "Pizarron", "Sillas"],
     imageUrl := "https://picsum.photos/400/300?random=1" }]

/-- `SEED_USERS` of `storage.ts`: one admin and one regular user. -/
def SEED_USERS : List StoredUser :=
  [{ id := "u1", username := "admin", password := some "password",
     role := UserRole.ADMIN, name := "Administrador Principal" },
   { id := "u2", username := "user", password := some "password",
     role := UserRole.USER, name := "Juan Perez" }]

/-- `SEED_CONFIG` of `storage.ts`. -/
def SEED_CONFIG : AppConfig :=
  { appName := "Parish Booker", appLogo := "fa-church" }

/-- `initializeStorage` of `storage.ts`: for each collection key in source
order (rooms, bookings, users, config), write the seed value only when the key
is absent. -/
def initializeStorage (s : Store) : Store :=
  let s1 := if s.rooms = none then { s with rooms := some SEED_ROOMS } else s
  let s2 := if s1.bookings = none then { s1 with bookings := some [] } else s1
  let s3 := if s2.users = none then { s2 with users := some SEED_USERS } else s2
  let s4 := if s3.config = none then { s3 with config := some SEED_CONFIG } else s3
  s4

/-- Case folding used by the `toLowerCase()` comparisons: lower-case every
character (ASCII letters; other characters are fixed, as in `Char.toLower`).
Defined by structural recursion over the character list so that it evaluates
inside the kernel. -/
def lowercase (s : String) : String :=
  String.mk (s.data.map Char.toLower)

/-- The password-stripping destructuring `const { password, ...safeUser } = user`
used by `login` and `register`. -/
def stripPassword (u : StoredUser) : StoredUser :=
  { u with password := none }

namespace StorageService

/-- `StorageService.getAppConfig`: the stored config, or `SEED_CONFIG` when
the key is absent (`getItem(...) || JSON.stringify(SEED_CONFIG)`). -/
def getAppConfig (s : Store) : AppConfig :=
  s.config.getD SEED_CONFIG

/-- `StorageService.updateAppConfig`: wholesale replacement of the singleton;
resolves `true`. -/
def updateAppConfig (s : Store) (config : AppConfig) : Bool × Store :=
  (true, { s with config := some config })

/-- `StorageService.login`: case-insensitive `find` on username over the
stored users (`[]` when the key is absent), then an exact password check; on
success the password-stripped user is stored in the session slot and resolved,
otherwise `null` is resolved and the store is untouched. -/
def login (s : Store) (username passwordInput : String) : Option StoredUser × Store :=
  let users := s.users.getD []
  match users.find? (fun v => lowercase v.username == lowercase username) with
  | some user =>
      if user.password = some passwordInput then
        let safeUser := stripPassword user
        (some safeUser, { s with currentUser := some safeUser })
      else
        (none, s)
  | none => (none, s)

/-- `StorageService.register`: resolves a message string (store untouched)
when a stored username matches case-insensitively; otherwise appends a new
user with generated id `u-${Date.now()}` (the timestamp is the explicit `now`
argument), default role USER, stores it, auto-logs-in the password-stripped
copy and resolves it. -/
def register (s : Store) (name username password : String) (now : Nat) :
    (StoredUser ⊕ String) × Store :=
  let users := s.users.getD []
  if users.any (fun v => lowercase v.username == lowercase username) then
    (Sum.inr "El nombre de usuario ya existe.", s)
  else
    let newUser : StoredUser :=
      { id := "u-" ++ toString now, username := username, password := some password,
        name := name, role := UserRole.USER }
    let safeUser := stripPassword newUser
    (Sum.inl safeUser,
      { s with users := some (users ++ [newUser]), currentUser := some safeUser })

/-- `StorageService.logout`: removes the session key. -/
def logout (s : Store) : Store :=
  { s with currentUser := none }

/-- `StorageService.getCurrentUser`: synchronous read of the session slot,
`null` when absent. -/
def getCurrentUser (s : Store) : Option StoredUser :=
  s.currentUser

/-- `StorageService.updatePassword`: maps over the stored users, replacing the
password field of every user whose id matches; always resolves `true`. -/
def updatePassword (s : Store) (userId newPassword : String) : Bool × Store :=
  let users := s.users.getD []
  let updatedUsers := users.map fun u =>
    if u.id = userId then { u with password := some newPassword } else u
  (true, { s with users := some updatedUsers })

/-- `StorageService.getRooms`: the stored room list, `[]` when absent. -/
def getRooms (s : Store) : List Room :=
  s.rooms.getD []

/-- `StorageService.addRoom`: appends a room with generated id
`room-${Date.now()}` (the timestamp is the explicit `now` argument); resolves
`true`. -/
def addRoom (s : Store) (name : String) (capacity : Nat) (features : List String)
    (imageUrl : String) (now : Nat) : Bool × Store :=
  let rooms := s.rooms.getD []
  let newRoom : Room :=
    { id := "room-" ++ toString now, name := name, capacity := capacity,
      features := features, imageUrl := imageUrl }
  (true, { s with rooms := some (rooms ++ [newRoom]) })

/-- `StorageService.updateRoom`: maps over the stored rooms, replacing the
room whose id matches; always resolves `true`. -/
def updateRoom (s : Store) (updatedRoom : Room) : Bool × Store :=
  let rooms := s.rooms.getD []
  let newRooms := rooms.map fun r => if r.id = updatedRoom.id then updatedRoom else r
  (true, { s with rooms := some newRooms })

/-- `StorageService.deleteRoom`: filters the room with the given id out of the
stored rooms, then unconditionally filters out every booking whose `roomId`
matches; resolves `true`. -/
def deleteRoom (s : Store) (roomId : String) : Bool × Store :=
  let rooms := s.rooms.getD []
  let newRooms := rooms.filter fun r => !(r.id == roomId)
  let s1 := { s with rooms := some newRooms }
  let bookings := s1.bookings.getD []
  let newBookings := bookings.filter fun b => !(b.roomId == roomId)
  (true, { s1 with bookings := some newBookings })

/-- `StorageService.createBooking`: appends a booking with generated id,
status PENDING and `createdAt = Date.now()` (the timestamp is the explicit
`now` argument); resolves `true`. -/
def createBooking (s : Store) (roomId requester : String) (timeStart timeEnd : Nat)
    (now : Nat) : Bool × Store :=
  let bookings := s.bookings.getD []
  let newBooking : Booking :=
    { id := toString now, roomId := roomId, requester := requester,
      timeStart := timeStart, timeEnd := timeEnd,
      status := BookingStatus.PENDING, createdAt := now }
  (true, { s with bookings := some (bookings ++ [newBooking]) })

/-- The comparator order of `getBookings`: `(a, b) => b.createdAt - a.createdAt`
sorts so that an element precedes another whenever its `createdAt` is at least
as large (newest first). -/
def byCreatedAtDesc (a b : Booking) : Prop :=
  b.createdAt ≤ a.createdAt

instance : DecidableRel byCreatedAtDesc :=
  fun a b => Nat.decLe b.createdAt a.createdAt

instance : IsTotal Booking byCreatedAtDesc :=
  ⟨fun a b => (Nat.le_total b.createdAt a.createdAt).imp id id⟩

instance : IsTrans Booking byCreatedAtDesc :=
  ⟨fun _ _ _ hab hbc => le_trans hbc hab⟩

/-- `StorageService.getBookings`: the stored bookings (`[]` when absent)
sorted newest first.  The JavaScript `Array.prototype.sort` with comparator
`(a, b) => b.createdAt - a.createdAt` is modelled as a sort consistent with
that comparator (insertion sort). -/
def getBookings (s : Store) : List Booking :=
  List.insertionSort byCreatedAtDesc (s.bookings.getD [])

/-- `StorageService.updateBookingStatus`: maps over the stored bookings,
replacing only the status field of the booking whose id matches; always
resolves `true`. -/
def updateBookingStatus (s : Store) (bookingId : String) (status : BookingStatus) :
    Bool × Store :=
  let bookings := s.bookings.getD []
  let updatedBookings := bookings.map fun b =>
    if b.id = bookingId then { b with status := status } else b
  (true, { s with bookings := some updatedBookings })

/-- `StorageService.updateBooking`: maps over the stored bookings, replacing
wholesale the booking whose id matches; always resolves `true`. -/
def updateBooking (s : Store) (updatedBooking : Booking) : Bool × Store :=
  let bookings := s.bookings.getD []
  let newBookings := bookings.map fun b =>
    if b.id = updatedBooking.id then updatedBooking else b
  (true, { s with bookings := some newBookings })

end StorageService

/-! ## Sample data used by closed witnesses and counterexamples -/

/-- A store with every key absent, as seen by a first-ever visit. -/
def emptyStore : Store :=
  { users := none, rooms := none, bookings := none, currentUser := none, config := none }

/-- A sample booking referencing the seed room. -/
def bk1 : Booking :=
  { id := "101", roomId := "room-1", requester := "Ana", timeStart := 9,
    timeEnd := 10, status := BookingStatus.PENDING, createdAt := 101 }

/-- A second sample booking, newer, referencing another room. -/
def bk2 : Booking :=
  { id := "205", roomId := "room-2", requester := "Luis", timeStart := 11,
    timeEnd := 12, status := BookingStatus.APPROVED, createdAt := 205 }

/-- A seeded sample store holding both sample bookings, oldest first. -/
def sampleStore : Store :=
  { users := some SEED_USERS, rooms := some SEED_ROOMS,
    bookings := some [bk1, bk2], currentUser := none, config := some SEED_CONFIG }

/-! ## Helper lemmas -/

/-- Mapping a function that fixes every element of a list is the identity. -/
theorem list_map_id_of_fixes {α : Type} (l : List α) (f : α → α)
    (h : ∀ x ∈ l, f x = x) : l.map f = l := by
  induction l with
  | nil => rfl
  | cons a t ih =>
      simp only [List.map_cons]
      rw [h a (by simp), ih fun x hx => h x (by simp [hx])]

/-- Filtering with a predicate that holds on every element is the identity. -/
theorem list_filter_id_of_holds {α : Type} (l : List α) (p : α → Bool)
    (h : ∀ x ∈ l, p x = true) : l.filter p = l := by
  induction l with
  | nil => rfl
  | cons a t ih =>
      rw [List.filter_cons, if_pos (h a (by simp)), ih fun x hx => h x (by simp [hx])]

/-! ## Claims -/

/-- C1: for every room id `r` and every starting store, after `deleteRoom r`
resolves (with `true`), the rooms collection contains no room with id `r` and
the bookings collection contains no booking with `roomId = r`, while every
room with another id and every booking referencing another room is
retained. -/
theorem deleteRoom_cascade (s : Store) (roomId : String) :
    (StorageService.deleteRoom s roomId).1 = true ∧
    (∀ r ∈ ((StorageService.deleteRoom s roomId).2).rooms.getD [], r.id ≠ roomId) ∧
    (∀ b ∈ ((StorageService.deleteRoom s roomId).2).bookings.getD [], b.roomId ≠ roomId) ∧
    (∀ r ∈ s.rooms.getD [], r.id ≠ roomId →
      r ∈ ((StorageService.deleteRoom s roomId).2).rooms.getD []) ∧
    (∀ b ∈ s.bookings.getD [], b.roomId ≠ roomId →
      b ∈ ((StorageService.deleteRoom s roomId).2).bookings.getD []) := by
  refine ⟨rfl, ?_, ?_, ?_, ?_⟩ <;>
    simp [StorageService.deleteRoom, List.mem_filter] <;>
    exact fun x hx hne => ⟨hx, hne⟩

/-- C9: when no stored room has the given id, `deleteRoom` still resolves
`true` and leaves the rooms collection unchanged, yet the cascade runs
unconditionally: no booking with that `roomId` survives, and every other
booking is retained. -/
theorem deleteRoom_missing_id (s : Store) (roomId : String) (rs : List Room)
    (hr : s.rooms = some rs) (h : ∀ r ∈ rs, r.id ≠ roomId) :
    (StorageService.deleteRoom s roomId).1 = true ∧
    ((StorageService.deleteRoom s roomId).2).rooms = some rs ∧
    (∀ b ∈ ((StorageService.deleteRoom s roomId).2).bookings.getD [], b.roomId ≠ roomId) ∧
    (∀ b ∈ s.bookings.getD [], b.roomId ≠ roomId →
      b ∈ ((StorageService.deleteRoom s roomId).2).bookings.getD []) := by
  have hfix : rs.filter (fun r => !(r.id == roomId)) = rs :=
    list_filter_id_of_holds rs _ (by intro x hx; simpa using h x hx)
  refine ⟨rfl, ?_, ?_, ?_⟩
  · simp [StorageService.deleteRoom, hr, hfix]
  · simp [StorageService.deleteRoom, List.mem_filter]
  · simp [StorageService.deleteRoom, List.mem_filter]
    exact fun x hx hne => ⟨hx, hne⟩

/-- C9 witness: deleting the absent id `room-9` from the sample store keeps
both rooms-as-stored and the booking of `room-1`, resolves `true`, and leaves
no booking of `room-9`. -/
theorem deleteRoom_missing_id_witness :
    (StorageService.deleteRoom sampleStore "room-9").1 = true ∧
    ((StorageService.deleteRoom sampleStore "room-9").2).rooms = some SEED_ROOMS ∧
    (∀ b ∈ ((StorageService.deleteRoom sampleStore "room-9").2).bookings.getD [],
      b.roomId ≠ "room-9") ∧
    (∀ b ∈ sampleStore.bookings.getD [], b.roomId ≠ "room-9" →
      b ∈ ((StorageService.deleteRoom sampleStore "room-9").2).bookings.getD []) :=
  deleteRoom_missing_id sampleStore "room-9" SEED_ROOMS rfl (by decide)

/-- C8: initialization is idempotent — running `initializeStorage` twice from
any starting store yields exactly the store of running it once — and each seed
value is written only when its key is absent (a present collection is kept
as-is). -/
theorem initializeStorage_idempotent (s : Store) :
    initializeStorage (initializeStorage s) = initializeStorage s ∧
    (∀ x, s.rooms = some x → (initializeStorage s).rooms = some x) ∧
    (∀ x, s.bookings = some x → (initializeStorage s).bookings = some x) ∧
    (∀ x, s.users = some x → (initializeStorage s).users = some x) ∧
    (∀ x, s.config = some x → (initializeStorage s).config = some x) := by
  obtain ⟨u, r, b, cu, c⟩ := s
  cases u <;> cases r <;> cases b <;> cases c <;> simp [initializeStorage]

/-- C8 witness: from the all-absent store, a second initialization changes
nothing, and on the already-seeded sample store the stored users are kept. -/
theorem initializeStorage_idempotent_witness :
    initializeStorage (initializeStorage emptyStore) = initializeStorage emptyStore ∧
    (initializeStorage sampleStore).users = some SEED_USERS :=
  ⟨(initializeStorage_idempotent emptyStore).1,
   (initializeStorage_idempotent sampleStore).2.2.2.1 SEED_USERS rfl⟩

/-- C10: every read is total on an uninitialized store — with all keys absent,
`getRooms` and `getBookings` resolve to the empty list, `getAppConfig`
resolves to the seed config, and `getCurrentUser` returns `null`. -/
theorem reads_total_on_uninitialized (s : Store) (hr : s.rooms = none)
    (hb : s.bookings = none) (hc : s.config = none) (hcu : s.currentUser = none) :
    StorageService.getRooms s = [] ∧ StorageService.getBookings s = [] ∧
    StorageService.getAppConfig s = SEED_CONFIG ∧
    StorageService.getCurrentUser s = none := by
  simp [StorageService.getRooms, StorageService.getBookings, StorageService.getAppConfig,
    StorageService.getCurrentUser, StorageService.byCreatedAtDesc, hr, hb, hc, hcu,
    List.insertionSort]

/-- C10 witness: the four reads evaluated on the all-absent store. -/
theorem reads_total_on_uninitialized_witness :
    StorageService.getRooms emptyStore = [] ∧
    StorageService.getBookings emptyStore = [] ∧
    StorageService.getAppConfig emptyStore = SEED_CONFIG ∧
    StorageService.getCurrentUser emptyStore = none :=
  reads_total_on_uninitialized emptyStore rfl rfl rfl rfl

/-- C6: with an id not present in the (present) corresponding collection,
`updateRoom`, `updateBooking` and `updateBookingStatus` leave the whole store
byte-for-byte unchanged and still resolve `true`. -/
theorem update_missing_id_noop (s : Store) (room : Room) (bk : Booking)
    (bookingId : String) (status : BookingStatus)
    (rs : List Room) (bs : List Booking)
    (hr : s.rooms = some rs) (hb : s.bookings = some bs)
    (hnr : ∀ r ∈ rs, r.id ≠ room.id)
    (hnb : ∀ b ∈ bs, b.id ≠ bk.id)
    (hns : ∀ b ∈ bs, b.id ≠ bookingId) :
    StorageService.updateRoom s room = (true, s) ∧
    StorageService.updateBooking s bk = (true, s) ∧
    StorageService.updateBookingStatus s bookingId status = (true, s) := by
  have h1 : rs.map (fun r => if r.id = room.id then room else r) = rs :=
    list_map_id_of_fixes _ _ fun x hx => if_neg (hnr x hx)
  have h2 : bs.map (fun b => if b.id = bk.id then bk else b) = bs :=
    list_map_id_of_fixes _ _ fun x hx => if_neg (hnb x hx)
  have h3 : bs.map (fun b => if b.id = bookingId then { b with status := status } else b) = bs :=
    list_map_id_of_fixes _ _ fun x hx => if_neg (hns x hx)
  refine ⟨?_, ?_, ?_⟩
  · show (true, { s with rooms := _ }) = (true, s)
    rw [hr, Option.getD_some, h1, ← hr]
  · show (true, { s with bookings := _ }) = (true, s)
    rw [hb, Option.getD_some, h2, ← hb]
  · show (true, { s with bookings := _ }) = (true, s)
    rw [hb, Option.getD_some, h3, ← hb]

/-- C6 witness: on the sample store, updating by the absent room id `room-9`
and the absent booking id `999` changes nothing and resolves `true`. -/
theorem update_missing_id_noop_witness :
    StorageService.updateRoom sampleStore
      { id := "room-9", name := "Hall", capacity := 10, features := [], imageUrl := "" } =
      (true, sampleStore) ∧
    StorageService.updateBooking sampleStore
      { id := "999", roomId := "room-1", requester := "Eva", timeStart := 1,
        timeEnd := 2, status := BookingStatus.PENDING, createdAt := 999 } =
      (true, sampleStore) ∧
    StorageService.updateBookingStatus sampleStore "999" BookingStatus.REJECTED =
      (true, sampleStore) :=
  update_missing_id_noop sampleStore
    { id := "room-9", name := "Hall", capacity := 10, features := [], imageUrl := "" }
    { id := "999", roomId := "room-1", requester := "Eva", timeStart := 1,
      timeEnd := 2, status := BookingStatus.PENDING, createdAt := 999 }
    "999" BookingStatus.REJECTED SEED_ROOMS [bk1, bk2] rfl rfl
    (by decide) (by decide) (by decide)

/-- C7: `updatePassword userId newPassword` resolves `true` and replaces only
the password field of the user(s) whose id equals `userId`: positionally, a
non-matching user is kept verbatim and a matching one keeps every other field;
when no user matches, the (present) users collection is byte-for-byte
unchanged; no other key of the store is touched. -/
theorem updatePassword_frame (s : Store) (userId newPassword : String)
    (us : List StoredUser) (hs : s.users = some us) :
    (StorageService.updatePassword s userId newPassword).1 = true ∧
    (∀ i : Nat, ∀ u : StoredUser, us[i]? = some u → u.id ≠ userId →
      (((StorageService.updatePassword s userId newPassword).2).users.getD [])[i]? = some u) ∧
    (∀ i : Nat, ∀ u : StoredUser, us[i]? = some u → u.id = userId →
      (((StorageService.updatePassword s userId newPassword).2).users.getD [])[i]? =
        some { u with password := some newPassword }) ∧
    ((∀ u ∈ us, u.id ≠ userId) →
      ((StorageService.updatePassword s userId newPassword).2).users = some us) ∧
    ((StorageService.updatePassword s userId newPassword).2).rooms = s.rooms ∧
    ((StorageService.updatePassword s userId newPassword).2).bookings = s.bookings ∧
    ((StorageService.updatePassword s userId newPassword).2).currentUser = s.currentUser ∧
    ((StorageService.updatePassword s userId newPassword).2).config = s.config := by
  refine ⟨rfl, ?_, ?_, ?_, rfl, rfl, rfl, rfl⟩
  · intro i u hu hne
    simp [StorageService.updatePassword, hs, List.getElem?_map, hu, if_neg hne]
  · intro i u hu heq
    simp [StorageService.updatePassword, hs, List.getElem?_map, hu, if_pos heq]
  · intro hnone
    have hfix : us.map (fun u => if u.id = userId then { u with password := some newPassword } else u) = us :=
      list_map_id_of_fixes _ _ fun x hx => if_neg (hnone x hx)
    simp [StorageService.updatePassword, hs, hfix]

/-- C7 witness: on the sample store, setting the password of `u1` keeps the
second seed user verbatim, rewrites only the password of the first, leaves the
other keys alone, and an update for the absent id `u9` keeps the users
byte-for-byte. -/
theorem updatePassword_frame_witness :
    (StorageService.updatePassword sampleStore "u1" "np").1 = true ∧
    (((StorageService.updatePassword sampleStore "u1" "np").2).users.getD [])[1]? =
      some { id := "u2", username := "user", password := some "password",
             role := UserRole.USER, name := "Juan Perez" } ∧
    (((StorageService.updatePassword sampleStore "u1" "np").2).users.getD [])[0]? =
      some { id := "u1", username := "admin", password := some "np",
             role := UserRole.ADMIN, name := "Administrador Principal" } ∧
    ((StorageService.updatePassword sampleStore "u9" "np").2).users = some SEED_USERS :=
  have h := updatePassword_frame sampleStore "u1" "np" SEED_USERS rfl
  ⟨h.1,
   h.2.1 1 { id := "u2", username := "user", password := some "password",
             role := UserRole.USER, name := "Juan Perez" } rfl (by decide),
   h.2.2.1 0 { id := "u1", username := "admin", password := some "password",
               role := UserRole.ADMIN, name := "Administrador Principal" } rfl rfl,
   (updatePassword_frame sampleStore "u9" "np" SEED_USERS rfl).2.2.2.1 (by decide)⟩

/-- C5: the list resolved by `getBookings` is ordered by `createdAt`
descending, and for any two entries `A` and `B` of the result with
`A.createdAt < B.createdAt`, `B` precedes `A` (its index is strictly
smaller). -/
theorem getBookings_sorted (s : Store) :
    List.Sorted StorageService.byCreatedAtDesc (StorageService.getBookings s) ∧
    ∀ (i j : Nat) (A B : Booking),
      (StorageService.getBookings s)[i]? = some A →
      (StorageService.getBookings s)[j]? = some B →
      A.createdAt < B.createdAt → j < i := by
  have hs : List.Sorted StorageService.byCreatedAtDesc (StorageService.getBookings s) :=
    List.sorted_insertionSort StorageService.byCreatedAtDesc (s.bookings.getD [])
  refine ⟨hs, ?_⟩
  intro i j A B hA hB hlt
  obtain ⟨hi, hAi⟩ := List.getElem?_eq_some_iff.mp hA
  obtain ⟨hj, hBj⟩ := List.getElem?_eq_some_iff.mp hB
  by_contra hji
  push_neg at hji
  rcases Nat.lt_or_ge i j with hij | hij
  · have hrel := hs.rel_get_of_lt (a := ⟨i, hi⟩) (b := ⟨j, hj⟩) hij
    simp only [List.get_eq_getElem, hAi, hBj] at hrel
    exact absurd hlt (not_lt.mpr hrel)
  · have hij2 : i = j := le_antisymm hji hij
    subst hij2
    rw [hAi] at hBj
    subst hBj
    exact lt_irrefl _ hlt

/-- C5 witness: on the sample store the older booking `bk1` (createdAt 101)
sits at index 1, the newer `bk2` (createdAt 205) at index 0, and the theorem
places the newer strictly before the older. -/
theorem getBookings_sorted_witness :
    (StorageService.getBookings sampleStore)[1]? = some bk1 ∧
    (StorageService.getBookings sampleStore)[0]? = some bk2 ∧
    bk1.createdAt < bk2.createdAt ∧ (0 : Nat) < 1 :=
  ⟨rfl, rfl, by decide,
   (getBookings_sorted sampleStore).2 1 0 bk1 bk2 rfl rfl (by decide)⟩

/-- C3: when some stored user's username equals the requested one ignoring
case, `register` resolves the message string and leaves the whole store (so in
particular the users collection) unchanged; when no such user exists, it
appends exactly one new user and resolves that user (password-stripped). -/
theorem register_correct (s : Store) (name username password : String) (now : Nat) :
    ((∃ u ∈ s.users.getD [], lowercase u.username = lowercase username) →
      (StorageService.register s name username password now).1 =
        Sum.inr "El nombre de usuario ya existe." ∧
      (StorageService.register s name username password now).2 = s) ∧
    ((∀ u ∈ s.users.getD [], lowercase u.username ≠ lowercase username) →
      ((StorageService.register s name username password now).2).users =
        some (s.users.getD [] ++
          [{ id := "u-" ++ toString now, username := username,
             password := some password, name := name, role := UserRole.USER }]) ∧
      (StorageService.register s name username password now).1 =
        Sum.inl (stripPassword
          { id := "u-" ++ toString now, username := username,
            password := some password, name := name, role := UserRole.USER })) := by
  constructor
  · rintro ⟨u, hu, hlow⟩
    have hany : (s.users.getD []).any
        (fun v => lowercase v.username == lowercase username) = true :=
      List.any_eq_true.mpr ⟨u, hu, by simpa using hlow⟩
    constructor <;> simp [StorageService.register, hany]
  · intro hnone
    have hany : (s.users.getD []).any
        (fun v => lowercase v.username == lowercase username) = false := by
      rw [List.any_eq_false]
      intro x hx
      simpa using hnone x hx
    constructor <;> simp [StorageService.register, hany]

/-- C3 witness: on the seeded sample store, registering the username `ADMIN`
(a case variant of the stored `admin`) resolves the message and changes
nothing, while registering the fresh username `ana` appends exactly one user
and resolves its password-stripped copy. -/
theorem register_correct_witness :
    (StorageService.register sampleStore "Eve" "ADMIN" "pw" 7).1 =
      Sum.inr "El nombre de usuario ya existe." ∧
    (StorageService.register sampleStore "Eve" "ADMIN" "pw" 7).2 = sampleStore ∧
    ((StorageService.register sampleStore "Ana" "ana" "pw" 7).2).users =
      some (SEED_USERS ++
        [{ id := "u-7", username := "ana", password := some "pw",
           name := "Ana", role := UserRole.USER }]) ∧
    (StorageService.register sampleStore "Ana" "ana" "pw" 7).1 =
      Sum.inl (stripPassword
        { id := "u-7", username := "ana", password := some "pw",
          name := "Ana", role := UserRole.USER }) :=
  have hdup := (register_correct sampleStore "Eve" "ADMIN" "pw" 7).1
    (by exact ⟨{ id := "u1", username := "admin", password := some "password",
                 role := UserRole.ADMIN, name := "Administrador Principal" },
               by decide, by decide⟩)
  have hnew := (register_correct sampleStore "Ana" "ana" "pw" 7).2 (by decide)
  ⟨hdup.1, hdup.2, hnew.1, hnew.2⟩

/-- Session-slot safety: whatever the session key holds is password-stripped.
Every store the gateway can produce satisfies it (see `no_password_leak`), and
the uninitialized store satisfies it vacuously. -/
def sessionSafe (s : Store) : Prop :=
  ∀ u, s.currentUser = some u → u.password = none

/-- C4: no resolved User-shaped value carries a password — a user resolved by
`login` or by `register` has no password field, `getCurrentUser` returns a
password-free value on every session-safe store, and session safety is
preserved by every operation of the gateway (and by initialization), so it
holds in every reachable store, the all-absent initial store included. -/
theorem no_password_leak :
    (∀ (s : Store) (u p : String) (v : StoredUser),
      (StorageService.login s u p).1 = some v → v.password = none) ∧
    (∀ (s : Store) (name username password : String) (now : Nat) (v : StoredUser),
      (StorageService.register s name username password now).1 = Sum.inl v →
        v.password = none) ∧
    (∀ s : Store, sessionSafe s →
      ∀ v, StorageService.getCurrentUser s = some v → v.password = none) ∧
    sessionSafe emptyStore ∧
    (∀ s : Store, sessionSafe s → sessionSafe (initializeStorage s)) ∧
    (∀ (s : Store) (u p : String), sessionSafe s →
      sessionSafe (StorageService.login s u p).2) ∧
    (∀ (s : Store) (name username password : String) (now : Nat), sessionSafe s →
      sessionSafe (StorageService.register s name username password now).2) ∧
    (∀ s : Store, sessionSafe (StorageService.logout s)) ∧
    (∀ (s : Store) (userId newPassword : String), sessionSafe s →
      sessionSafe (StorageService.updatePassword s userId newPassword).2) ∧
    (∀ (s : Store) (c : AppConfig), sessionSafe s →
      sessionSafe (StorageService.updateAppConfig s c).2) ∧
    (∀ (s : Store) (name : String) (capacity : Nat) (features : List String)
        (imageUrl : String) (now : Nat), sessionSafe s →
      sessionSafe (StorageService.addRoom s name capacity features imageUrl now).2) ∧
    (∀ (s : Store) (r : Room), sessionSafe s →
      sessionSafe (StorageService.updateRoom s r).2) ∧
    (∀ (s : Store) (roomId : String), sessionSafe s →
      sessionSafe (StorageService.deleteRoom s roomId).2) ∧
    (∀ (s : Store) (roomId requester : String) (timeStart timeEnd now : Nat),
      sessionSafe s →
      sessionSafe (StorageService.createBooking s roomId requester timeStart timeEnd now).2) ∧
    (∀ (s : Store) (bookingId : String) (status : BookingStatus), sessionSafe s →
      sessionSafe (StorageService.updateBookingStatus s bookingId status).2) ∧
    (∀ (s : Store) (b : Booking), sessionSafe s →
      sessionSafe (StorageService.updateBooking s b).2) := by
  have hlogin1 : ∀ (s : Store) (u p : String) (v : StoredUser),
      (StorageService.login s u p).1 = some v → v.password = none := by
    intro s u p v h
    simp only [StorageService.login] at h
    split at h
    · split at h
      · simp only [Prod.fst] at h
        cases h
        rfl
      · exact absurd h (by simp)
    · exact absurd h (by simp)
  have hlogin2 : ∀ (s : Store) (u p : String), sessionSafe s →
      sessionSafe (StorageService.login s u p).2 := by
    intro s u p hsafe v hv
    simp only [StorageService.login] at hv
    split at hv
    · split at hv
      · exact (Option.some.inj hv) ▸ rfl
      · exact hsafe v hv
    · exact hsafe v hv
  refine ⟨hlogin1, ?_, ?_, ?_, ?_, hlogin2, ?_, ?_, ?_, ?_, ?_, ?_, ?_, ?_, ?_, ?_⟩
  · intro s name username password now v h
    simp only [StorageService.register] at h
    split at h
    · exact absurd h (by simp)
    · simp only [Prod.fst] at h
      cases h
      rfl
  · intro s hsafe v hv
    exact hsafe v hv
  · intro u h
    cases h
  · intro s hsafe v hv
    apply hsafe
    obtain ⟨us, rs, bs, cu, c⟩ := s
    revert hv
    cases us <;> cases rs <;> cases bs <;> cases c <;>
      simp [initializeStorage]
  · intro s name username password now hsafe v hv
    simp only [StorageService.register] at hv
    split at hv
    · exact hsafe v hv
    · simp only [Prod.snd, Store.currentUser] at hv
      cases hv
      rfl
  · intro s v hv
    simp [StorageService.logout] at hv
  · intro s userId newPassword hsafe v hv
    exact hsafe v (by simpa [StorageService.updatePassword] using hv)
  · intro s c hsafe v hv
    exact hsafe v (by simpa [StorageService.updateAppConfig] using hv)
  · intro s name capacity features imageUrl now hsafe v hv
    exact hsafe v (by simpa [StorageService.addRoom] using hv)
  · intro s r hsafe v hv
    exact hsafe v (by simpa [StorageService.updateRoom] using hv)
  · intro s roomId hsafe v hv
    exact hsafe v (by simpa [StorageService.deleteRoom] using hv)
  · intro s roomId requester timeStart timeEnd now hsafe v hv
    exact hsafe v (by simpa [StorageService.createBooking] using hv)
  · intro s bookingId status hsafe v hv
    exact hsafe v (by simpa [StorageService.updateBookingStatus] using hv)
  · intro s b hsafe v hv
    exact hsafe v (by simpa [StorageService.updateBooking] using hv)

/-- C4 witness: logging in as the seed admin resolves exactly the
password-stripped admin record, and the theorem certifies its password field
is `none`. -/
theorem no_password_leak_witness :
    (StorageService.login sampleStore "admin" "password").1 =
      some { id := "u1", username := "admin", password := none,
             role := UserRole.ADMIN, name := "Administrador Principal" } ∧
    ({ id := "u1", username := "admin", password := none,
       role := UserRole.ADMIN, name := "Administrador Principal" } : StoredUser).password
      = none :=
  ⟨rfl,
   no_password_leak.1 sampleStore "admin" "password"
     { id := "u1", username := "admin", password := none,
       role := UserRole.ADMIN, name := "Administrador Principal" } rfl⟩

/-- Two stored users whose usernames differ only in case: the first has
password `x`, the second password `y`. -/
def dupUserA : StoredUser :=
  { id := "a", username := "dup", password := some "x", role := UserRole.USER, name := "A" }

/-- The second user of the duplicate pair. -/
def dupUserB : StoredUser :=
  { id := "b", username := "DUP", password := some "y", role := UserRole.USER, name := "B" }

/-- A store whose users collection violates case-insensitive username
uniqueness (which `register` never creates but an arbitrary store allows). -/
def dupStore : Store :=
  { users := some [dupUserA, dupUserB], rooms := none, bookings := none,
    currentUser := none, config := none }

/-- C2 counterexample: in `dupStore` some stored record (`dupUserB`) has
username equal to `dup` ignoring case and password exactly `y`, yet
`login "dup" "y"` resolves `null`, because the case-insensitive `find` stops
at `dupUserA`, whose password differs — so "resolves to a user iff some
stored record matches" fails in the if direction. -/
theorem login_iff_counterexample :
    (∃ w ∈ dupStore.users.getD [],
      lowercase w.username = lowercase "dup" ∧ w.password = some "y") ∧
    (StorageService.login dupStore "dup" "y").1 = none := by
  constructor
  · exact ⟨dupUserB, by decide, by decide, rfl⟩
  · rfl

/-- Keys mapped by an injective-on-the-list function identify elements. -/
theorem pairwise_key_inj {α β : Type} (f : α → β) :
    ∀ l : List α, l.Pairwise (fun a b => f a ≠ f b) →
      ∀ a ∈ l, ∀ b ∈ l, f a = f b → a = b := by
  intro l
  induction l with
  | nil =>
      intro _ a ha
      exact absurd ha (List.not_mem_nil a)
  | cons x t ih =>
      intro h a ha b hb hfab
      have hx := (List.pairwise_cons.mp h).1
      have ht := (List.pairwise_cons.mp h).2
      rcases List.mem_cons.mp ha with rfl | ha2
      · rcases List.mem_cons.mp hb with rfl | hb2
        · rfl
        · exact absurd hfab (hx b hb2)
      · rcases List.mem_cons.mp hb with rfl | hb2
        · exact absurd hfab.symm (hx a ha2)
        · exact ih ht a ha2 b hb2 hfab

/-- C2 amended: provided the stored usernames are pairwise distinct ignoring
case (the invariant registration maintains), `login u p` resolves a user value
iff some stored record has username equal to `u` ignoring case and password
exactly `p`; otherwise it resolves `null` with the store untouched, and on
success the resolved user is password-stripped and the session slot is set to
exactly it. -/
theorem login_iff_unique (s : Store) (u p : String)
    (huniq : (s.users.getD []).Pairwise
      (fun a b => lowercase a.username ≠ lowercase b.username)) :
    ((∃ w ∈ s.users.getD [],
        lowercase w.username = lowercase u ∧ w.password = some p) ↔
      ∃ v, (StorageService.login s u p).1 = some v) ∧
    ((StorageService.login s u p).1 = none → (StorageService.login s u p).2 = s) ∧
    (∀ v, (StorageService.login s u p).1 = some v →
      v.password = none ∧
      (StorageService.login s u p).2 = { s with currentUser := some v }) := by
  cases hf : (s.users.getD []).find? (fun v => lowercase v.username == lowercase u) with
  | none =>
      have hno : ∀ w ∈ s.users.getD [], lowercase w.username ≠ lowercase u := by
        intro w hw
        have hwp := List.find?_eq_none.mp hf w hw
        simpa using hwp
      have hres : StorageService.login s u p = (none, s) := by
        simp [StorageService.login, hf]
      refine ⟨?_, ?_, ?_⟩
      · constructor
        · rintro ⟨w, hw, hlow, _⟩
          exact absurd hlow (hno w hw)
        · rintro ⟨v, hv⟩
          rw [hres] at hv
          cases hv
      · intro _
        rw [hres]
      · intro v hv
        rw [hres] at hv
        cases hv
  | some w =>
      have hwmem : w ∈ s.users.getD [] := List.mem_of_find?_eq_some hf
      have hwlow : lowercase w.username = lowercase u := by
        have hwp := List.find?_some hf
        simpa using hwp
      by_cases hpw : w.password = some p
      · have hres : StorageService.login s u p =
            (some (stripPassword w), { s with currentUser := some (stripPassword w) }) := by
          simp [StorageService.login, hf, hpw]
        refine ⟨?_, ?_, ?_⟩
        · exact ⟨fun _ => ⟨stripPassword w, by rw [hres]⟩, fun _ => ⟨w, hwmem, hwlow, hpw⟩⟩
        · intro hnone
          rw [hres] at hnone
          cases hnone
        · intro v hv
          rw [hres] at hv
          cases Option.some.inj hv
          exact ⟨rfl, by rw [hres]⟩
      · have hres : StorageService.login s u p = (none, s) := by
          simp [StorageService.login, hf, hpw]
        refine ⟨?_, ?_, ?_⟩
        · constructor
          · rintro ⟨w2, hw2, hlow2, hpw2⟩
            have hww : w2 = w :=
              pairwise_key_inj (fun a => lowercase a.username) _ huniq w2 hw2 w hwmem
                (hlow2.trans hwlow.symm)
            subst hww
            exact absurd hpw2 hpw
          · rintro ⟨v, hv⟩
            rw [hres] at hv
            cases hv
        · intro _
          rw [hres]
        · intro v hv
          rw [hres] at hv
          cases hv

/-- C2 witness: the seed users are pairwise distinct ignoring case; logging in
as `admin` with the right password succeeds, and with a wrong password the
store is untouched. -/
theorem login_iff_unique_witness :
    (∃ v, (StorageService.login sampleStore "admin" "password").1 = some v) ∧
    (StorageService.login sampleStore "admin" "wrong").2 = sampleStore :=
  ⟨(login_iff_unique sampleStore "admin" "password" (by decide)).1.mp
    ⟨{ id := "u1", username := "admin", password := some "password",
       role := UserRole.ADMIN, name := "Administrador Principal" },
     by decide, by decide, rfl⟩,
   (login_iff_unique sampleStore "admin" "wrong" (by decide)).2.1 rfl⟩

/-- C1 witness: deleting the seed room from the sample store resolves `true`,
no surviving room has id `room-1`, and the booking of the other room
(`bk2`) is retained. -/
theorem deleteRoom_cascade_witness :
    (StorageService.deleteRoom sampleStore "room-1").1 = true ∧
    (∀ r ∈ ((StorageService.deleteRoom sampleStore "room-1").2).rooms.getD [],
      r.id ≠ "room-1") ∧
    bk2 ∈ ((StorageService.deleteRoom sampleStore "room-1").2).bookings.getD [] :=
  have h := deleteRoom_cascade sampleStore "room-1"
  ⟨h.1, h.2.1, h.2.2.2.2 bk2 (by decide) (by decide)⟩
